import Mathlib

/-!
# Verification of the URL-shortener core (`src/app.js`)

A shallow embedding of the core of `app.js`:

* `urlChars`, the code-generator alphabet (line 9);
* `generateShortURL` (lines 68–94): read the counter file `./count`,
  convert its numeric value to a short code by the do-while digit loop,
  write back `count + 1`, and hand the code to the callback only after a
  successful write;
* `findURL` (lines 38–61) and `addURL` (lines 96–129) over an explicit
  record store standing for the `shorturls` Mongo collection;
* the `GET /new/*` handler (lines 135–172);
* a small interleaving machine decomposing the read / write-back of the
  counter and the find / insert of the record store into atomic events, to
  reason about concurrent invocations.

JavaScript numbers on the paths the claims exercise are either naturals or
`NaN`; they are modelled by `JSNum`.  File and database I/O outcomes are
passed in as explicit parameters.
-/

namespace UrlShortener

/-- The generator alphabet, from line 9 of `app.js`:
`"1234567890…".split('')`.  (83 characters.) -/
def urlChars : List Char :=
  "1234567890qwertyuiopasdfghjklzxcvbnmQWERTYUIOPASDFGHJKLZXCVBNM~!@$%&*()-_=+[];:',./".toList

/-- The alphabet size: `asciiRange = urlChars.length` (line 76). -/
def asciiRange : Nat := urlChars.length

/-- Indexing `urlChars[i]` for an in-bounds index (the loop only ever indexes with
`count2 % asciiRange + 0`, which is in bounds on the numeric path). -/
def charAt (i : Nat) : Char := urlChars.getD i ' '

/-- A JavaScript number as it occurs on the counter path: a natural from a
numeric file, or `NaN` from a non-numeric one. -/
inductive JSNum where
  | num (n : Nat)
  | nan
deriving DecidableEq, Repr

/-- Parsing `Number(buf.toString())` (line 74), restricted to the contents the
counter file can hold on the paths under study: a string of decimal digits
parses to its value, the empty string parses to `0` (JavaScript's
`Number("") === 0`), anything else is `NaN`. -/
def jsNumber (s : String) : JSNum :=
  if s.isEmpty then .num 0
  else if s.toList.all Char.isDigit then
    .num (s.toList.foldl (fun acc c => acc * 10 + (c.toNat - 48)) 0)
  else .nan

/-- Increment on JavaScript numbers: `NaN + 1` is `NaN` (line 87). -/
def jsSucc : JSNum → JSNum
  | .num n => .num (n + 1)
  | .nan => .nan

/-- The do-while digit loop of lines 81–84, fuelled so that it is
structurally recursive (the fuel is irrelevant once it dominates the
division chain, see `genLoopF_fuel_irrel`):

```
do {
  str = urlChars[count2 % asciiRange + asciiMin] + str;
  count2 = Math.floor(count2 / asciiRange);
} while (count2 > 0);
```

`acc` is `str`; one iteration always runs before the test. -/
def genLoopF : Nat → Nat → List Char → List Char
  | 0, n, acc => charAt (n % asciiRange) :: acc
  | fuel + 1, n, acc =>
    let acc' := charAt (n % asciiRange) :: acc
    if n / asciiRange > 0 then genLoopF fuel (n / asciiRange) acc' else acc'

/-- The character list the loop builds for the numeric counter value `n`
(fuel `n` dominates the division chain). -/
def genList (n : Nat) : List Char := genLoopF n n []

/-- The short code for a counter value read from the file.  On the `NaN`
path `urlChars[NaN]` is `undefined` and `undefined + ""` is the string
`"undefined"`; the loop then exits because `NaN > 0` is false. -/
def shortCodeOfCount : JSNum → String
  | .num n => String.mk (genList n)
  | .nan => "undefined"

/-- The short code for a natural counter value. -/
def shortCode (n : Nat) : String := String.mk (genList n)

/-- Outcome of `fs.readFile('./count', …)` (line 69). -/
inductive FsRead where
  | content (s : String)
  | fsError
deriving DecidableEq, Repr

/-- Errors `generateShortURL` passes to its callback. -/
inductive GenErr where
  | readErr
  | writeErr
deriving DecidableEq, Repr

deriving instance DecidableEq for Except

/-- Result of one `generateShortURL` invocation: what the callback
receives, and the value durably written to `./count` (if the write
happened and succeeded). -/
structure GenOutcome where
  res : Except GenErr String
  written : Option JSNum
deriving DecidableEq, Repr

/-- The function `generateShortURL` (lines 68–94).  `read` is the outcome of the file
read; `writeOk` says whether `fs.writeFile('./count', count, …)` succeeds.
The callback receives the code string only inside the write's success
callback (line 91). -/
def generateShortURL (read : FsRead) (writeOk : Bool) : GenOutcome :=
  match read with
  | .fsError => ⟨.error .readErr, none⟩
  | .content s =>
    let count := jsNumber s
    let str := shortCodeOfCount count
    if writeOk then ⟨.ok str, some (jsSucc count)⟩
    else ⟨.error .writeErr, none⟩

/-- The digit algorithm exactly as the specification words it: repeatedly
take the value mod `A` as the next digit from the least-significant end,
integer-divide by `A`, and stop when the quotient reaches 0 (at least one
digit is always produced).  Fuelled like `genLoopF`; written from the
spec's words, to be compared with the loop embedded from the source. -/
def lsbDigitsF : Nat → Nat → List Nat
  | 0, n => [n % asciiRange]
  | f + 1, n =>
    if n / asciiRange > 0 then n % asciiRange :: lsbDigitsF f (n / asciiRange)
    else [n % asciiRange]

/-- The least-significant-first digit list of the spec's algorithm. -/
def lsbDigits (n : Nat) : List Nat := lsbDigitsF n n

/-- A document of the `shorturls` collection (lines 112–114). -/
structure Record where
  original_url : String
  short_url : String
deriving DecidableEq, Repr

/-- The `shorturls` collection: insertion-ordered documents. -/
structure Store where
  recs : List Record
deriving DecidableEq, Repr

/-- The query of `findURL`, `shorturls.findOne({original_url: url})`
(lines 46–48): the first document whose `original_url` equals `url`. -/
def findURL (st : Store) (url : String) : Option Record :=
  st.recs.find? (fun r => r.original_url == url)

/-- The insert `shorturls.insert({original_url: url, short_url: shortUrl})`
(lines 112–115): an unconditional insert, no uniqueness constraint. -/
def insertRec (st : Store) (r : Record) : Store := ⟨st.recs ++ [r]⟩

/-- How many stored documents carry this `original_url`. -/
def recordsFor (st : Store) (url : String) : Nat :=
  (st.recs.filter (fun r => r.original_url == url)).length

/-- Errors `addURL` passes to its callback. -/
inductive AddErr where
  | connectErr
  | genErr (e : GenErr)
  | insertErr
deriving DecidableEq, Repr

/-- Result of one `addURL` invocation. -/
structure AddOutcome where
  res : Except AddErr Record
  store : Store
  written : Option JSNum
deriving DecidableEq, Repr

/-- The function `addURL` (lines 96–129): connect, `generateShortURL`, then insert the
new document unconditionally — as its own doc comment says, it "does not
check for uniqueness", and it has no conflict outcome.  `connectOk` and
`insertOk` are the outcomes of the database operations. -/
def addURL (connectOk : Bool) (read : FsRead) (writeOk insertOk : Bool)
    (st : Store) (url : String) : AddOutcome :=
  if !connectOk then ⟨.error .connectErr, st, none⟩
  else
    let g := generateShortURL read writeOk
    match g.res with
    | .error e => ⟨.error (.genErr e), st, g.written⟩
    | .ok code =>
      if insertOk then ⟨.ok ⟨url, code⟩, insertRec st ⟨url, code⟩, g.written⟩
      else ⟨.error .insertErr, st, g.written⟩

/-- Responses of the `GET /new/*` handler (lines 135–172). -/
inductive Resp where
  | invalidScheme
  | checkFailed
  | findErr
  | addErr
  | created (r : Record)
  | existing (r : Record)
deriving DecidableEq, Repr

/-- Outcomes of the I/O performed during one `GET /new/*` request:
whether the reachability check calls back without error (lines 17–30),
whether `findURL`'s database operations succeed, and the `addURL`
parameters. -/
structure NewEnv where
  chkOk : Bool
  findOk : Bool
  connectOk : Bool
  read : FsRead
  writeOk : Bool
  insertOk : Bool
deriving DecidableEq, Repr

/-- Result of one `GET /new/*` request. -/
structure NewOutcome where
  resp : Resp
  store : Store
  written : Option JSNum
deriving DecidableEq, Repr

/-- The response rewrite `_url.short_url = req.headers.host + "/" + _url.short_url`
(lines 154, 158). -/
def withHost (host : String) (r : Record) : Record :=
  { r with short_url := host ++ "/" ++ r.short_url }

/-- The call `url.substr(0, n)`: the first `n` characters. -/
def substrTo (s : String) (n : Nat) : String := String.mk (s.toList.take n)

/-- The scheme test of lines 165–168:
`url.substr(0,8) == 'https://' || url.substr(0,7) == 'http://'`. -/
def hasScheme (url : String) : Bool :=
  substrTo url 8 == "https://" || substrTo url 7 == "http://"

/-- The `GET /new/*` handler (lines 135–172): scheme-prefix check first
(lines 165–171), then the reachability check, then `findURL`; on a miss,
`addURL`.  Responds 404 on check failure, 500 on database errors, 200 with
the host-prefixed record otherwise. -/
def handleNew (env : NewEnv) (host url : String) (st : Store) : NewOutcome :=
  if !hasScheme url then
    ⟨.invalidScheme, st, none⟩
  else if !env.chkOk then ⟨.checkFailed, st, none⟩
  else if !env.findOk then ⟨.findErr, st, none⟩
  else
    match findURL st url with
    | some r => ⟨.existing (withHost host r), st, none⟩
    | none =>
      let a := addURL env.connectOk env.read env.writeOk env.insertOk st url
      match a.res with
      | .error _ => ⟨.addErr, a.store, a.written⟩
      | .ok r => ⟨.created (withHost host r), a.store, a.written⟩

/-- One in-flight `generateShortURL` invocation, decomposed into its two
atomic effects on the shared counter file: the read of `./count` (line 69)
and the write-back of `count + 1` (line 88).  `pc` is 0 before the read,
1 between read and write, 2 when finished; `ret` is the counter value the
invocation turned into a code for its caller. -/
structure CTask where
  pc : Nat
  loc : Nat
  ret : Option Nat
deriving DecidableEq, Repr

/-- A fresh invocation. -/
def CTask.init : CTask := ⟨0, 0, none⟩

/-- The shared counter file plus the in-flight invocations. -/
structure CSys where
  persisted : Nat
  tasks : List CTask
deriving DecidableEq, Repr

/-- Run the next atomic event of invocation `i`: its read captures the
persisted value; its write stores `loc + 1` and delivers `loc` (as the
code `generate(loc)`) to the caller. -/
def cstep (s : CSys) (i : Nat) : CSys :=
  match s.tasks.get? i with
  | none => s
  | some t =>
    match t.pc with
    | 0 => { s with tasks := s.tasks.set i ⟨1, s.persisted, none⟩ }
    | 1 => { persisted := t.loc + 1, tasks := s.tasks.set i ⟨2, t.loc, some t.loc⟩ }
    | _ => s

/-- Run a schedule: a list of invocation indices, each entry executing
that invocation's next atomic event. -/
def crun (s : CSys) (sched : List Nat) : CSys := sched.foldl cstep s

/-- A full, uninterleaved `generateShortURL` counter transaction on a
numeric counter (read then write-back, no other invocation in between):
returns the observed value and the new persisted value.  It agrees with
running one invocation of the machine to completion, see
`nextSer_eq_crun`. -/
def nextSer (c : Nat) : Nat × Nat := (c, c + 1)

/-- The values returned by `N` serialized counter transactions starting
from persisted value `c`. -/
def serReturns : Nat → Nat → List Nat
  | 0, _ => []
  | n + 1, c => (nextSer c).1 :: serReturns n (nextSer c).2

/-- One in-flight `GET /new/*` request on the success path (scheme ok,
reachability check ok, all I/O succeeding), decomposed into atomic events:
`pc` 0 = before `findURL`'s query (line 46), 1 = query missed, before the
counter read (line 69), 2 = counter read done, before the write-back and
insert, 3 = finished.  The counter write-back (line 88) and the document
insert (line 112) are merged into one event; merging events only removes
interleavings, so every behaviour of this machine is a behaviour of the
finer one.  `resp` is the record this caller was answered with. -/
structure NTask where
  pc : Nat
  loc : Nat
  resp : Option Record
deriving DecidableEq, Repr

/-- A fresh request. -/
def NTask.init : NTask := ⟨0, 0, none⟩

/-- Shared state for concurrent `GET /new/*` requests: the counter file
and the `shorturls` collection, plus the in-flight requests. -/
structure NSys where
  count : Nat
  store : Store
  tasks : List NTask
deriving DecidableEq, Repr

/-- Run the next atomic event of request `i`, all requests shortening the
same `url`. -/
def nstep (url : String) (s : NSys) (i : Nat) : NSys :=
  match s.tasks.get? i with
  | none => s
  | some t =>
    match t.pc with
    | 0 =>
      match findURL s.store url with
      | some r => { s with tasks := s.tasks.set i { t with pc := 3, resp := some r } }
      | none => { s with tasks := s.tasks.set i { t with pc := 1 } }
    | 1 => { s with tasks := s.tasks.set i { t with pc := 2, loc := s.count } }
    | 2 =>
      { count := t.loc + 1,
        store := insertRec s.store ⟨url, shortCode t.loc⟩,
        tasks := s.tasks.set i { t with pc := 3, resp := some ⟨url, shortCode t.loc⟩ } }
    | _ => s

/-- Run a schedule of request events. -/
def nrun (url : String) (s : NSys) (sched : List Nat) : NSys :=
  sched.foldl (nstep url) s

theorem asciiRange_pos : 0 < asciiRange := by decide

theorem one_lt_asciiRange : 1 < asciiRange := by decide

theorem urlChars_nodup : urlChars.Nodup := by decide

theorem genLoopF_of_div_eq_zero (n : Nat) (h : n / asciiRange = 0) (f : Nat)
    (acc : List Char) : genLoopF f n acc = charAt (n % asciiRange) :: acc := by
  cases f with
  | zero => rfl
  | succ g => simp [genLoopF, h]

theorem genLoopF_succ_of_div_pos (n g : Nat) (acc : List Char)
    (h : 0 < n / asciiRange) :
    genLoopF (g + 1) n acc
      = genLoopF g (n / asciiRange) (charAt (n % asciiRange) :: acc) := by
  simp [genLoopF, h]

theorem genLoopF_append (f : Nat) : ∀ (n : Nat) (acc : List Char),
    genLoopF f n acc = genLoopF f n [] ++ acc := by
  induction f with
  | zero => intro n acc; simp [genLoopF]
  | succ g ih =>
    intro n acc
    by_cases h : 0 < n / asciiRange
    · rw [genLoopF_succ_of_div_pos n g acc h, genLoopF_succ_of_div_pos n g [] h,
        ih _ (charAt (n % asciiRange) :: acc), ih _ [charAt (n % asciiRange)],
        List.append_assoc]
      rfl
    · have h0 : n / asciiRange = 0 := Nat.eq_zero_of_not_pos h
      rw [genLoopF_of_div_eq_zero n h0, genLoopF_of_div_eq_zero n h0]
      rfl

theorem genLoopF_fuel_irrel : ∀ (n f f' : Nat) (acc : List Char), n ≤ f → n ≤ f' →
    genLoopF f n acc = genLoopF f' n acc := by
  intro n
  induction n using Nat.strong_induction_on with
  | _ n ih =>
    intro f f' acc hf hf'
    by_cases h : n / asciiRange = 0
    · rw [genLoopF_of_div_eq_zero n h, genLoopF_of_div_eq_zero n h]
    · have hq : 0 < n / asciiRange := Nat.pos_of_ne_zero h
      have hn : 0 < n := lt_of_lt_of_le hq (Nat.div_le_self n _)
      have hlt : n / asciiRange < n := Nat.div_lt_self hn one_lt_asciiRange
      obtain ⟨g, rfl⟩ : ∃ g, f = g + 1 :=
        ⟨f - 1, (Nat.succ_pred_eq_of_pos (lt_of_lt_of_le hn hf)).symm⟩
      obtain ⟨g', rfl⟩ : ∃ g', f' = g' + 1 :=
        ⟨f' - 1, (Nat.succ_pred_eq_of_pos (lt_of_lt_of_le hn hf')).symm⟩
      rw [genLoopF_succ_of_div_pos n g acc hq, genLoopF_succ_of_div_pos n g' acc hq]
      exact ih _ hlt _ _ _ (by omega) (by omega)

/-- The characteristic equation of the source's digit loop: one digit for
the low-order position, then the loop continues on the quotient exactly
when it is positive. -/
theorem genList_eq (n : Nat) :
    genList n = if n / asciiRange = 0 then [charAt (n % asciiRange)]
      else genList (n / asciiRange) ++ [charAt (n % asciiRange)] := by
  by_cases h : n / asciiRange = 0
  · unfold genList
    rw [genLoopF_of_div_eq_zero n h, if_pos h]
  · have hq : 0 < n / asciiRange := Nat.pos_of_ne_zero h
    have hn : 0 < n := lt_of_lt_of_le hq (Nat.div_le_self n _)
    obtain ⟨g, rfl⟩ : ∃ g, n = g + 1 := ⟨n - 1, (Nat.succ_pred_eq_of_pos hn).symm⟩
    have hlt : (g + 1) / asciiRange < g + 1 :=
      Nat.div_lt_self (Nat.succ_pos g) one_lt_asciiRange
    rw [if_neg h]
    unfold genList
    rw [genLoopF_succ_of_div_pos (g + 1) g [] hq, genLoopF_append,
      genLoopF_fuel_irrel ((g + 1) / asciiRange) g ((g + 1) / asciiRange)
        [] (by omega) le_rfl]

theorem genList_length_pos (n : Nat) : 0 < (genList n).length := by
  rw [genList_eq]
  by_cases h : n / asciiRange = 0 <;> simp [h]

theorem charAt_inj {i j : Nat} (hi : i < asciiRange) (hj : j < asciiRange)
    (h : charAt i = charAt j) : i = j := by
  have hi' : i < urlChars.length := hi
  have hj' : j < urlChars.length := hj
  rw [charAt, charAt, List.getD_eq_get urlChars ' ' hi',
    List.getD_eq_get urlChars ' ' hj'] at h
  have := (List.Nodup.get_inj_iff urlChars_nodup).mp h
  exact congrArg Fin.val this

theorem genList_injective : ∀ n m : Nat, genList n = genList m → n = m := by
  intro n
  induction n using Nat.strong_induction_on with
  | _ n ih =>
    intro m h
    rw [genList_eq n, genList_eq m] at h
    have hmodn : n % asciiRange < asciiRange := Nat.mod_lt _ asciiRange_pos
    have hmodm : m % asciiRange < asciiRange := Nat.mod_lt _ asciiRange_pos
    by_cases hn : n / asciiRange = 0 <;> by_cases hm : m / asciiRange = 0
    · rw [if_pos hn, if_pos hm] at h
      have hc : charAt (n % asciiRange) = charAt (m % asciiRange) :=
        (List.cons.injEq _ _ _ _ ▸ h).1
      have hnA : n < asciiRange := (Nat.div_eq_zero_iff asciiRange_pos).mp hn
      have hmA : m < asciiRange := (Nat.div_eq_zero_iff asciiRange_pos).mp hm
      have := charAt_inj hmodn hmodm hc
      rwa [Nat.mod_eq_of_lt hnA, Nat.mod_eq_of_lt hmA] at this
    · rw [if_pos hn, if_neg hm] at h
      have hlen := congrArg List.length h
      simp only [List.length_append, List.length_singleton] at hlen
      have := genList_length_pos (m / asciiRange)
      omega
    · rw [if_neg hn, if_pos hm] at h
      have hlen := congrArg List.length h
      simp only [List.length_append, List.length_singleton] at hlen
      have := genList_length_pos (n / asciiRange)
      omega
    · rw [if_neg hn, if_neg hm] at h
      have h' := congrArg List.reverse h
      simp [List.reverse_append] at h'
      have hdiv : n / asciiRange = m / asciiRange :=
        ih _ (Nat.div_lt_self (Nat.pos_of_ne_zero fun h0 => hn (by simp [h0]))
          one_lt_asciiRange) _ h'.2
      have hmod : n % asciiRange = m % asciiRange := charAt_inj hmodn hmodm h'.1
      have h1 := Nat.div_add_mod n asciiRange
      have h2 := Nat.div_add_mod m asciiRange
      rw [hdiv, hmod] at h1
      exact h1.symm.trans h2

theorem genLoopF_eq_lsbDigitsF : ∀ (f n : Nat) (acc : List Char),
    genLoopF f n acc = ((lsbDigitsF f n).reverse.map charAt) ++ acc := by
  intro f
  induction f with
  | zero => intro n acc; simp [genLoopF, lsbDigitsF]
  | succ g ih =>
    intro n acc
    by_cases h : 0 < n / asciiRange
    · rw [genLoopF_succ_of_div_pos n g acc h, ih]
      simp [lsbDigitsF, h]
    · have h0 : n / asciiRange = 0 := Nat.eq_zero_of_not_pos h
      rw [genLoopF_of_div_eq_zero n h0]
      simp [lsbDigitsF, h0]

theorem genList_len1 {n : Nat} (h : n < asciiRange) : (genList n).length = 1 := by
  rw [genList_eq, if_pos ((Nat.div_eq_zero_iff asciiRange_pos).mpr h)]
  rfl

theorem genList_len2 {n : Nat} (h1 : asciiRange ≤ n)
    (h2 : n < asciiRange * asciiRange) : (genList n).length = 2 := by
  have hq1 : 0 < n / asciiRange := Nat.div_pos h1 asciiRange_pos
  have hq2 : n / asciiRange < asciiRange :=
    (Nat.div_lt_iff_lt_mul asciiRange_pos).mpr h2
  rw [genList_eq, if_neg (Nat.pos_iff_ne_zero.mp hq1), List.length_append,
    genList_len1 hq2]
  rfl

theorem find?_append_of_none {α : Type} (p : α → Bool) (l1 l2 : List α)
    (h : l1.find? p = none) : (l1 ++ l2).find? p = l2.find? p := by
  induction l1 with
  | nil => rfl
  | cons a l ih =>
    cases hpa : p a with
    | true => simp [List.find?_cons, hpa] at h
    | false =>
      simp only [List.find?_cons, hpa] at h
      simpa [List.find?_cons, hpa] using ih h

theorem findURL_insertRec_self (st : Store) (url code : String)
    (h : findURL st url = none) :
    findURL (insertRec st ⟨url, code⟩) url = some ⟨url, code⟩ := by
  unfold findURL insertRec at *
  rw [find?_append_of_none _ _ _ h]
  simp [List.find?_cons]

theorem recordsFor_insertRec_same (st : Store) (url code : String) :
    recordsFor (insertRec st ⟨url, code⟩) url = recordsFor st url + 1 := by
  unfold recordsFor insertRec
  simp [List.filter_append]

theorem findURL_none_recordsFor (st : Store) (url : String)
    (h : findURL st url = none) : recordsFor st url = 0 := by
  unfold findURL at h
  unfold recordsFor
  rw [List.find?_eq_none] at h
  simp only [List.length_eq_zero, List.filter_eq_nil]
  exact fun r hr => by simpa using h r hr

/-- C4: for every non-negative counter value `n`, the generator returns
exactly the string built by the spec's algorithm — repeatedly take the
value mod `A` as the next character from the least-significant end,
integer-divide by `A`, stop when the quotient reaches 0 — and the code for
0 is the single character at alphabet index 0 (the zero digit is not
dropped). -/
theorem generator_matches_spec_digits (n : Nat) :
    shortCode n = String.mk ((lsbDigits n).reverse.map charAt) ∧
    shortCode 0 = String.mk [charAt 0] := by
  refine ⟨?_, rfl⟩
  unfold shortCode genList lsbDigits
  rw [genLoopF_eq_lsbDigitsF n n []]
  simp

/-- C5: the code generator is injective: distinct counter values (in
particular distinct values issued by the counter) receive distinct
codes. -/
theorem generator_injective (n m : Nat) (h : n ≠ m) :
    shortCode n ≠ shortCode m := fun hc =>
  h (genList_injective n m (congrArg String.data hc))

/-- Witness for C5's theorem at the concrete pair 0, 1. -/
theorem generator_injective_witness : (0 : Nat) ≠ 1 ∧ shortCode 0 ≠ shortCode 1 :=
  ⟨by decide, generator_injective 0 1 (by decide)⟩

/-- C6: `generateShortURL` hands a code to its caller only when the
incremented counter was durably written first; whenever the write of
`count + 1` fails the caller gets the error and no code. -/
theorem generateShortURL_persist_gate (read : FsRead) (w : Bool) :
    ((generateShortURL read w).res.isOk = true →
      (generateShortURL read w).written.isSome = true) ∧
    (w = false → (generateShortURL read w).res.isOk = false) := by
  cases read <;> cases w <;> simp [generateShortURL, Except.isOk, Except.toBool]

/-- Witness for C6's theorem: a successful run has persisted the
increment, and a run with a failing write returns no code. -/
theorem generateShortURL_persist_gate_witness :
    (generateShortURL (FsRead.content "0") true).written.isSome = true ∧
    (generateShortURL (FsRead.content "0") false).res.isOk = false :=
  ⟨(generateShortURL_persist_gate (FsRead.content "0") true).1 (by decide),
   (generateShortURL_persist_gate (FsRead.content "0") false).2 rfl⟩

/-- C7 counterexample: with no persisted counter state (`./count`
missing), the allocation does not start at 0 — `fs.readFile` fails and
the operation returns the read error, not the code `generate(0)`. -/
theorem counter_no_state_fails :
    (generateShortURL FsRead.fsError true).res = Except.error GenErr.readErr ∧
    (generateShortURL FsRead.fsError true).res ≠ Except.ok (shortCode 0) := by
  decide

/-- C7 (amended): the code never initializes a missing counter — with no
persisted state the allocation fails with the read error; the counter
starts at 0 only when the persisted file reads as 0 (a file containing
`"0"`, or an empty file, since `Number("") === 0`), and then the first
shortened URL receives `generate(0)`, the alphabet's first character. -/
theorem counter_zero_first_code :
    (generateShortURL (FsRead.content "0") true).res
        = Except.ok (String.mk [charAt 0]) ∧
    (generateShortURL (FsRead.content "") true).res
        = Except.ok (String.mk [charAt 0]) ∧
    (generateShortURL FsRead.fsError true).res = Except.error GenErr.readErr := by
  decide

/-- C8 counterexample: with readable but non-numeric counter content
(`"abc"`), the allocation does not fail: `Number("abc")` is `NaN`,
`urlChars[NaN]` is `undefined`, the loop builds the string `"undefined"`
and returns it as the short code, and `NaN` is written back to the
counter file. -/
theorem corrupt_counter_yields_code :
    (generateShortURL (FsRead.content "abc") true).res = Except.ok "undefined" ∧
    (generateShortURL (FsRead.content "abc") true).written = some JSNum.nan := by
  decide

/-- C8 (amended): an unreadable counter file fails the allocation with no
code; a readable but non-numeric counter does NOT fail — it returns the
string `"undefined"` as the short code (the same for every such call) and
overwrites the counter with `NaN`, though it never resets it to 0. -/
theorem corrupt_counter_behaviour (s : String) (hnan : jsNumber s = JSNum.nan) :
    (generateShortURL FsRead.fsError true).res = Except.error GenErr.readErr ∧
    (generateShortURL (FsRead.content s) true).res = Except.ok "undefined" ∧
    (generateShortURL (FsRead.content s) true).written = some JSNum.nan ∧
    (generateShortURL (FsRead.content s) true).written ≠ some (JSNum.num 0) := by
  refine ⟨rfl, ?_, ?_, ?_⟩ <;> simp [generateShortURL, shortCodeOfCount, jsSucc, hnan]

/-- Witness for C8's amended theorem at the non-numeric content `"abc"`. -/
theorem corrupt_counter_behaviour_witness :
    (generateShortURL FsRead.fsError true).res = Except.error GenErr.readErr ∧
    (generateShortURL (FsRead.content "abc") true).res = Except.ok "undefined" ∧
    (generateShortURL (FsRead.content "abc") true).written = some JSNum.nan ∧
    (generateShortURL (FsRead.content "abc") true).written ≠ some (JSNum.num 0) :=
  corrupt_counter_behaviour "abc" (by decide)

/-- C10 counterexample: the alphabet has 83 characters, not 84; and with
`A = asciiRange` the counter value `A * A` lies in the claim's length-2
range `A ≤ n ≤ A² + A - 1` yet its code has length 3. -/
theorem alphabet_size_counterexample :
    asciiRange = 83 ∧ ¬ asciiRange = 84 ∧
    (genList (asciiRange * asciiRange)).length = 3 ∧
    asciiRange ≤ asciiRange * asciiRange ∧
    asciiRange * asciiRange ≤ asciiRange * asciiRange + asciiRange - 1 := by
  decide

/-- C10 (amended): with `A = asciiRange = 83`, codes for counter values
`0 ≤ n < A` have length 1 and codes for `A ≤ n < A²` have length 2 (from
`A²` on they have length 3 or more). -/
theorem code_length_1_and_2 (n : Nat) :
    (n < asciiRange → (shortCode n).length = 1) ∧
    (asciiRange ≤ n → n < asciiRange * asciiRange → (shortCode n).length = 2) := by
  constructor
  · intro h
    show (genList n).length = 1
    exact genList_len1 h
  · intro h1 h2
    show (genList n).length = 2
    exact genList_len2 h1 h2

/-- Linkage: one invocation of the counter machine run to completion with
no interleaving is exactly the serialized transaction `nextSer`. -/
theorem nextSer_eq_crun (c : Nat) :
    crun ⟨c, [CTask.init]⟩ [0, 0]
      = ⟨(nextSer c).2, [⟨2, (nextSer c).1, some (nextSer c).1⟩]⟩ := rfl

/-- C1 counterexample: two concurrent `generateShortURL` invocations,
interleaved read, read, write, write, both return counter value 0 (hence
the same code) — duplicating a value, skipping none the spec way but
leaving the counter at 1 after two issues. -/
theorem counter_concurrent_duplicate :
    (crun ⟨0, [CTask.init, CTask.init]⟩ [0, 1, 0, 1]).tasks
        = [⟨2, 0, some 0⟩, ⟨2, 0, some 0⟩] ∧
    (crun ⟨0, [CTask.init, CTask.init]⟩ [0, 1, 0, 1]).persisted = 1 := by
  decide

/-- C1 (amended): the uniqueness/no-gap property holds only for
serialized invocations — `N` counter transactions run one after another
(each one's read and write-back uninterrupted) starting from persisted
value `c` return exactly `c, c+1, …, c+N-1`, pairwise distinct; under
concurrent interleaving of the non-atomic read/write the same value can be
returned twice. -/
theorem counter_serialized_exact (N c : Nat) :
    serReturns N c = (List.range N).map (fun i => c + i) ∧
    (serReturns N c).Nodup := by
  have h : ∀ (N c : Nat), serReturns N c = (List.range N).map (fun i => c + i) := by
    intro N
    induction N with
    | zero => intro c; rfl
    | succ n ih =>
      intro c
      rw [serReturns, List.range_succ_eq_map]
      simp only [nextSer, List.map_cons, List.map_map]
      rw [ih (c + 1)]
      refine congrArg₂ List.cons rfl ?_
      refine List.map_congr_left fun i _ => ?_
      simp only [Function.comp_apply]
      omega
  refine ⟨h N c, ?_⟩
  rw [h N c]
  exact (List.nodup_range N).map (fun a b hab => by omega)

/-- C2 counterexample: two concurrent requests shortening the same URL,
scheduled so both existence checks miss before either insert (find, find,
read, write+insert, read, write+insert): two records are durably stored
for the URL and the callers receive different codes. -/
theorem shorten_concurrent_two_records :
    (nrun "http://example.com" ⟨0, ⟨[]⟩, [NTask.init, NTask.init]⟩
        [0, 1, 0, 0, 1, 1]).store
        = ⟨[⟨"http://example.com", "1"⟩, ⟨"http://example.com", "2"⟩]⟩ ∧
    recordsFor (nrun "http://example.com" ⟨0, ⟨[]⟩, [NTask.init, NTask.init]⟩
        [0, 1, 0, 0, 1, 1]).store "http://example.com" = 2 ∧
    (nrun "http://example.com" ⟨0, ⟨[]⟩, [NTask.init, NTask.init]⟩
        [0, 1, 0, 0, 1, 1]).tasks
        = [⟨3, 0, some ⟨"http://example.com", "1"⟩⟩,
           ⟨3, 1, some ⟨"http://example.com", "2"⟩⟩] := by
  decide

/-- C2 (amended): sequentially, shortening the same valid URL twice
yields the same short code both times and exactly one stored record — the
second request finds the record the first created and mutates nothing;
under concurrent interleaving where both existence checks precede both
inserts, a second record is stored (the code has no insert-race
resolution). -/
theorem shorten_sequential_idempotent (env1 env2 : NewEnv) (host url s : String)
    (st : Store)
    (hscheme : hasScheme url = true)
    (hchk1 : env1.chkOk = true) (hfind1 : env1.findOk = true)
    (hconn1 : env1.connectOk = true) (hread1 : env1.read = FsRead.content s)
    (hw1 : env1.writeOk = true) (hins1 : env1.insertOk = true)
    (habsent : findURL st url = none)
    (hchk2 : env2.chkOk = true) (hfind2 : env2.findOk = true) :
    (handleNew env1 host url st).resp
        = Resp.created (withHost host ⟨url, shortCodeOfCount (jsNumber s)⟩) ∧
    recordsFor (handleNew env1 host url st).store url = 1 ∧
    (handleNew env2 host url (handleNew env1 host url st).store).resp
        = Resp.existing (withHost host ⟨url, shortCodeOfCount (jsNumber s)⟩) ∧
    (handleNew env2 host url (handleNew env1 host url st).store).store
        = (handleNew env1 host url st).store := by
  have h1 : handleNew env1 host url st
      = ⟨Resp.created (withHost host ⟨url, shortCodeOfCount (jsNumber s)⟩),
          insertRec st ⟨url, shortCodeOfCount (jsNumber s)⟩,
          some (jsSucc (jsNumber s))⟩ := by
    simp [handleNew, addURL, generateShortURL, hscheme, hchk1, hfind1, hconn1,
      hread1, hw1, hins1, habsent]
  have hfound := findURL_insertRec_self st url (shortCodeOfCount (jsNumber s)) habsent
  have h2 : handleNew env2 host url
        (insertRec st ⟨url, shortCodeOfCount (jsNumber s)⟩)
      = ⟨Resp.existing (withHost host ⟨url, shortCodeOfCount (jsNumber s)⟩),
          insertRec st ⟨url, shortCodeOfCount (jsNumber s)⟩, none⟩ := by
    simp [handleNew, hscheme, hchk2, hfind2, hfound]
  rw [h1]
  refine ⟨rfl, ?_, ?_, ?_⟩
  · rw [recordsFor_insertRec_same, findURL_none_recordsFor st url habsent]
  · rw [h2]
  · rw [h2]

/-- Witness for C2's amended theorem: `http://example.com` shortened
twice against an empty store and counter 0 yields the code `1` both
times and one record. -/
theorem shorten_sequential_idempotent_witness :
    (handleNew ⟨true, true, true, FsRead.content "0", true, true⟩ "h"
        "http://example.com" ⟨[]⟩).resp
        = Resp.created (withHost "h"
            ⟨"http://example.com", shortCodeOfCount (jsNumber "0")⟩) ∧
    recordsFor (handleNew ⟨true, true, true, FsRead.content "0", true, true⟩ "h"
        "http://example.com" ⟨[]⟩).store "http://example.com" = 1 ∧
    (handleNew ⟨true, true, true, FsRead.content "0", true, true⟩ "h"
        "http://example.com"
        (handleNew ⟨true, true, true, FsRead.content "0", true, true⟩ "h"
          "http://example.com" ⟨[]⟩).store).resp
        = Resp.existing (withHost "h"
            ⟨"http://example.com", shortCodeOfCount (jsNumber "0")⟩) ∧
    (handleNew ⟨true, true, true, FsRead.content "0", true, true⟩ "h"
        "http://example.com"
        (handleNew ⟨true, true, true, FsRead.content "0", true, true⟩ "h"
          "http://example.com" ⟨[]⟩).store).store
        = (handleNew ⟨true, true, true, FsRead.content "0", true, true⟩ "h"
            "http://example.com" ⟨[]⟩).store :=
  shorten_sequential_idempotent ⟨true, true, true, FsRead.content "0", true, true⟩
    ⟨true, true, true, FsRead.content "0", true, true⟩ "h" "http://example.com"
    "0" ⟨[]⟩ (by decide) rfl rfl rfl rfl rfl rfl (by decide) rfl rfl

/-- C3 counterexample: `addURL` called while a record for the URL already
exists does not fail with any conflict — it succeeds, returns a new
record, and the store ends up with two records for the URL. -/
theorem addURL_existing_no_conflict :
    (addURL true (FsRead.content "1") true true
        (insertRec ⟨[]⟩ ⟨"http://example.com", "1"⟩) "http://example.com").res
        = Except.ok ⟨"http://example.com", "2"⟩ ∧
    recordsFor (addURL true (FsRead.content "1") true true
        (insertRec ⟨[]⟩ ⟨"http://example.com", "1"⟩) "http://example.com").store
        "http://example.com" = 2 := by
  decide

/-- C3 (amended): `addURL` performs no existence check and has no
conflict outcome — when its I/O succeeds it inserts unconditionally, so
even when a record for the URL already exists it returns a fresh record
and the store gains one more record for that URL; uniqueness rests solely
on the caller's non-atomic `findURL` pre-check. -/
theorem addURL_unconditional_insert (read : FsRead) (st : Store) (url s : String)
    (hread : read = FsRead.content s)
    (_hdup : (findURL st url).isSome = true) :
    (addURL true read true true st url).res
        = Except.ok ⟨url, shortCodeOfCount (jsNumber s)⟩ ∧
    (addURL true read true true st url).store
        = insertRec st ⟨url, shortCodeOfCount (jsNumber s)⟩ ∧
    recordsFor (addURL true read true true st url).store url
        = recordsFor st url + 1 := by
  subst hread
  refine ⟨?_, ?_, ?_⟩ <;>
    simp [addURL, generateShortURL, recordsFor_insertRec_same]

/-- Witness for C3's amended theorem on a store already holding a record
for the URL. -/
theorem addURL_unconditional_insert_witness :
    (addURL true (FsRead.content "1") true true
        (insertRec ⟨[]⟩ ⟨"http://example.com", "1"⟩) "http://example.com").res
        = Except.ok ⟨"http://example.com", shortCodeOfCount (jsNumber "1")⟩ ∧
    (addURL true (FsRead.content "1") true true
        (insertRec ⟨[]⟩ ⟨"http://example.com", "1"⟩) "http://example.com").store
        = insertRec (insertRec ⟨[]⟩ ⟨"http://example.com", "1"⟩)
            ⟨"http://example.com", shortCodeOfCount (jsNumber "1")⟩ ∧
    recordsFor (addURL true (FsRead.content "1") true true
        (insertRec ⟨[]⟩ ⟨"http://example.com", "1"⟩) "http://example.com").store
        "http://example.com"
        = recordsFor (insertRec ⟨[]⟩ ⟨"http://example.com", "1"⟩)
            "http://example.com" + 1 :=
  addURL_unconditional_insert (FsRead.content "1")
    (insertRec ⟨[]⟩ ⟨"http://example.com", "1"⟩) "http://example.com" "1"
    rfl (by decide)

/-- C9: when the reachability check fails on a scheme-prefixed URL, the
request is answered with the 404 validation failure and nothing is
mutated: the store is unchanged, no record is created, and nothing is
written to the counter file. -/
theorem validation_failure_no_mutation (env : NewEnv) (host url : String)
    (st : Store) (hscheme : hasScheme url = true) (hchk : env.chkOk = false) :
    handleNew env host url st = ⟨Resp.checkFailed, st, none⟩ := by
  simp [handleNew, hscheme, hchk]

/-- Witness for C9's theorem: a failing check on `http://example.com`
against an empty store. -/
theorem validation_failure_no_mutation_witness :
    handleNew ⟨false, true, true, FsRead.content "0", true, true⟩ "h"
        "http://example.com" ⟨[]⟩
      = ⟨Resp.checkFailed, ⟨[]⟩, none⟩ :=
  validation_failure_no_mutation ⟨false, true, true, FsRead.content "0", true, true⟩
    "h" "http://example.com" ⟨[]⟩ (by decide) rfl

/-- Witness for C10's amended theorem at the values 5 and 100. -/
theorem code_length_witness :
    (shortCode 5).length = 1 ∧ (shortCode 100).length = 2 :=
  ⟨(code_length_1_and_2 5).1 (by decide),
   (code_length_1_and_2 100).2 (by decide) (by decide)⟩

end UrlShortener
